import Mathlib

/-!
Shallow embedding of `analysis.py` (Companies House fraud-propensity audit).

Conventions used throughout:
* Python strings become `String`; `str.strip()` becomes `strip` (ASCII
  whitespace, like Python's on this data), `str.casefold()` / `str.lower()`
  become `casefold` / `lower` (both map ASCII letters to lower case, which is
  where Python's two functions agree; the data contains only such letters).
* A Python dict of companies becomes a `List Company` (its `.values()` in
  iteration order); dict keys never matter to the analysed functions.
* A missing key fetched with `.get` becomes an `Option` that is `none`.
* Python's truthiness on an optional string (`if country:`) is `none` or `""`
  being falsy; this is modelled explicitly at each use site.
* `datetime.utcnow().date()` is passed in as an explicit `today : Date`
  parameter; nothing else about the ambient clock matters.
* Python float arithmetic is modelled over `ℝ`; `float` division raises
  `ZeroDivisionError` exactly when the divisor is zero, which is modelled by
  an `Except PyError` result in the one place the source divides without a
  guard.
-/

namespace CompaniesHouse

/-! ### String primitives -/

/-- Characters of a string after removing leading and trailing whitespace:
models Python `str.strip()`. -/
def trimChars (cs : List Char) : List Char :=
  ((cs.dropWhile Char.isWhitespace).reverse.dropWhile Char.isWhitespace).reverse

/-- Python `str.strip()`. -/
def strip (s : String) : String :=
  ⟨trimChars s.data⟩

/-- Python `str.casefold()` (ASCII range, where it agrees with lower-casing). -/
def casefold (s : String) : String :=
  ⟨s.data.map Char.toLower⟩

/-- Python `str.lower()` (ASCII range). -/
def lower (s : String) : String :=
  ⟨s.data.map Char.toLower⟩

/-- Does `needle` occur as a contiguous run inside `hay`? Helper list form. -/
def containsSubAux (needle : List Char) : List Char → Bool
  | [] => needle.isEmpty
  | c :: rest => needle.isPrefixOf (c :: rest) || containsSubAux needle rest

/-- Python `needle in hay` on strings: substring containment. -/
def containsSub (needle hay : String) : Bool :=
  containsSubAux needle.data hay.data

/-! ### Dates

`datetime.strptime(s, '%d/%m/%Y').date()` is modelled by `parseDMY`: the
string must be three `/`-separated all-digit fields (day and month of one or
two digits, year of exactly four digits, as `%Y` matches) forming a valid
calendar date;
`strptime` validates the day against the month and leap years, which
`daysInMonth` reproduces. -/

structure Date where
  year : Nat
  month : Nat
  day : Nat
deriving DecidableEq, Repr

/-- Gregorian leap-year rule, as `datetime` uses. -/
def isLeap (y : Nat) : Bool :=
  y % 4 = 0 && (y % 100 ≠ 0 || y % 400 = 0)

/-- Days in a month, for date validation. -/
def daysInMonth (y m : Nat) : Nat :=
  if m = 2 then (if isLeap y then 29 else 28)
  else if m = 4 ∨ m = 6 ∨ m = 9 ∨ m = 11 then 30
  else 31

/-- Strict `<` on `datetime.date` values (year, then month, then day). -/
def Date.isBefore (a b : Date) : Bool :=
  if a.year < b.year then true
  else if a.year = b.year then
    if a.month < b.month then true
    else if a.month = b.month then
      if a.day < b.day then true else false
    else false
  else false

/-- Split a character list on `'/'` (every occurrence, keeping empty pieces). -/
def splitSlashAux : List Char → List Char → List (List Char)
  | [], acc => [acc.reverse]
  | c :: rest, acc =>
      if c = '/' then acc.reverse :: splitSlashAux rest []
      else splitSlashAux rest (c :: acc)

/-- Value of a list of decimal digit characters. -/
def digitsToNat (cs : List Char) : Nat :=
  cs.foldl (fun n c => n * 10 + (c.toNat - 48)) 0

/-- A non-empty, all-digit character list. -/
def allDigits (cs : List Char) : Bool :=
  !cs.isEmpty && cs.all Char.isDigit

/-- One numeric field of between `minLen` and `maxLen` digits: `strptime`'s
`%d` and `%m` match one or two digits, `%Y` matches exactly four. -/
def parseField (cs : List Char) (minLen maxLen : Nat) : Option Nat :=
  if allDigits cs && minLen ≤ cs.length && cs.length ≤ maxLen then
    some (digitsToNat cs)
  else none

/-- Model of `datetime.strptime(s, '%d/%m/%Y').date()`, returning `none`
where Python raises `ValueError`. -/
def parseDMY (s : String) : Option Date :=
  match splitSlashAux s.data [] with
  | [ds, ms, ys] =>
    match parseField ds 1 2, parseField ms 1 2, parseField ys 4 4 with
    | some d, some m, some y =>
        if 1 ≤ m ∧ m ≤ 12 ∧ 1 ≤ d ∧ d ≤ daysInMonth y m ∧ 1 ≤ y ∧ y ≤ 9999 then
          some ⟨y, m, d⟩
        else none
    | _, _, _ => none
  | _ => none

/-! ### Data model -/

/-- A value stored in a director's `address` mapping: a string, or anything
else (only `isinstance(val, str)` values are ever looked inside). -/
inductive AVal where
  | str (s : String)
  | nonstr
deriving DecidableEq, Repr

/-- A director record (`officer`). `address = none` models a missing
`address` key (Python's `.get('address', {})` then yields `{}`). -/
structure Officer where
  country_of_residence : Option String
  residence_country : Option String
  address : Option (List (String × AVal))
deriving DecidableEq, Repr

/-- The `company_data` mapping: only the three fields the analysis reads.
`none` models a missing key (`data.get(k, '')` then yields `''`). -/
structure CompanyData where
  confStmtNextDueDate : Option String
  accountsNextDueDate : Option String
  regAddressLine1 : Option String
deriving DecidableEq, Repr

/-- One company record from `sampled_companies`. -/
structure Company where
  directors : List Officer
  company_data : CompanyData
deriving DecidableEq, Repr

/-- The counts dict built by `count_companies_by_uk_director_status`. -/
structure Counts where
  with_uk : Nat
  without_uk : Nat
  questionable_residence : Nat
  total_directors : Nat
  total_companies : Nat
deriving DecidableEq, Repr

/-- One group's metrics dict built by `analyze_compliance`. -/
structure GroupMetrics where
  late_confstmt : Nat
  late_accounts : Nat
  default_address : Nat
deriving DecidableEq, Repr

/-- The two-group metrics structure of `analyze_compliance`. -/
structure Metrics where
  with_uk : GroupMetrics
  without_uk : GroupMetrics
deriving DecidableEq, Repr

/-- Select a group by flag: `true` is `'with_uk'`, `false` is `'without_uk'`. -/
def Metrics.group (m : Metrics) (g : Bool) : GroupMetrics :=
  if g then m.with_uk else m.without_uk

/-! ### UK variant set (`load_UK_variants`) -/

/-- `load_UK_variants`, applied to the raw lines of the variants file:
strip each line, drop empties, then case-fold. The result is used only
through membership, so a `List` models the Python set. -/
def load_UK_variants (lines : List String) : List String :=
  ((lines.map strip).filter (fun s => s ≠ "")).map casefold

/-- The membership test both classifiers use:
`country.strip().casefold() in uk_variants`. -/
def isUKVariant (uk : List String) (s : String) : Bool :=
  uk.contains (casefold (strip s))

/-! ### Director field resolution -/

/-- `officer.get('country_of_residence') or officer.get('residence_country')`:
Python `or` falls through on a missing key and on the falsy empty string. -/
def resolvedCountry (o : Officer) : Option String :=
  match o.country_of_residence with
  | some s => if s = "" then o.residence_country else some s
  | none => o.residence_country

/-- `officer.get('address', {}).get('country')`, for the cases the data
exercises (a string value or nothing). -/
def addressCountryOf (o : Officer) : Option String :=
  match o.address with
  | some addr =>
    match addr.lookup "country" with
    | some (.str s) => some s
    | _ => none
  | none => none

/-- `country and country.strip().casefold() in uk_variants`. -/
def residenceUK (uk : List String) (o : Officer) : Bool :=
  match resolvedCountry o with
  | some c => if c = "" then false else isUKVariant uk c
  | none => false

/-- `address_country and address_country.strip().casefold() in uk_variants`. -/
def addressUK (uk : List String) (o : Officer) : Bool :=
  match addressCountryOf o with
  | some c => if c = "" then false else isUKVariant uk c
  | none => false

/-- A director counts as UK-qualifying when both residence and address
country pass the membership test. -/
def qualifiesUK (uk : List String) (o : Officer) : Bool :=
  residenceUK uk o && addressUK uk o

/-- A director hits the questionable-residence branch: residence country is
UK but the address country is absent or not UK. -/
def questionableDir (uk : List String) (o : Officer) : Bool :=
  residenceUK uk o && !(addressUK uk o)

/-! ### `extract_director_countries` -/

/-- The country strings one director contributes to the inspection set. -/
def officerCountries (o : Officer) : List String :=
  (match resolvedCountry o with
   | some c => if c = "" then [] else [strip c]
   | none => []) ++
  (match addressCountryOf o with
   | some c => if c = "" then [] else [strip c]
   | none => [])

/-- `extract_director_countries`: the Python set is modelled as the list of
all strings added to it (its membership is list membership). -/
def extract_director_countries (companies : List Company) : List String :=
  companies.flatMap (fun info => info.directors.flatMap officerCountries)

/-! ### `count_companies_by_uk_director_status` (full-scan pass) -/

/-- The inner director loop: carries the running `has_uk` flag and the global
`questionable_residence` and `total_directors` counters through the directors
of one company, in order, with no early exit. -/
def dirScan (uk : List String) (hasUK : Bool) (q nd : Nat) :
    List Officer → Bool × Nat × Nat
  | [] => (hasUK, q, nd)
  | o :: rest =>
      if residenceUK uk o then
        if addressUK uk o then dirScan uk true q (nd + 1) rest
        else dirScan uk hasUK (q + 1) (nd + 1) rest
      else dirScan uk hasUK q (nd + 1) rest

/-- The per-company body of the outer loop of
`count_companies_by_uk_director_status`. -/
def accumCompany (uk : List String) (c : Counts) (info : Company) : Counts :=
  let s := dirScan uk false 0 0 info.directors
  { with_uk := c.with_uk + (if s.1 then 1 else 0)
    without_uk := c.without_uk + (if s.1 then 0 else 1)
    questionable_residence := c.questionable_residence + s.2.1
    total_directors := c.total_directors + s.2.2
    total_companies := c.total_companies }

/-- The outer company loop. -/
def countLoop (uk : List String) (c : Counts) : List Company → Counts
  | [] => c
  | info :: rest => countLoop uk (accumCompany uk c info) rest

/-- `count_companies_by_uk_director_status`: loop from zeroed counters, then
set `total_companies = with_uk + without_uk`. -/
def count_companies_by_uk_director_status (uk : List String)
    (companies : List Company) : Counts :=
  let c := countLoop uk ⟨0, 0, 0, 0, 0⟩ companies
  { c with total_companies := c.with_uk + c.without_uk }

/-! ### `analyze_compliance` (short-circuit pass) -/

/-- The grouping loop of `analyze_compliance`: evaluate directors in order
and `break` at the first UK-qualifying one. -/
def hasUkShortCircuit (uk : List String) : List Officer → Bool
  | [] => false
  | o :: rest => if qualifiesUK uk o then true else hasUkShortCircuit uk rest

/-- `str(data.get(key, '')).strip()` for an optional string field. -/
def strField (o : Option String) : String :=
  strip (o.getD "")

/-- One due-date check: parse the stripped field as `%d/%m/%Y`; a date
strictly before `today` contributes 1, anything else (including a parse
failure, which Python swallows with `except Exception: pass`) contributes 0. -/
def lateContrib (today : Date) (field : Option String) : Nat :=
  match parseDMY (strField field) with
  | some d => if Date.isBefore d today then 1 else 0
  | none => 0

/-- `(officer.get('address', {}) or {}).values()` in mapping order. -/
def addressValues (o : Officer) : List AVal :=
  match o.address with
  | some addr => addr.map Prod.snd
  | none => []

/-- `isinstance(val, str) and 'default address' in val.lower()`. -/
def valMatchesDefault : AVal → Bool
  | .str s => containsSub "default address" (lower s)
  | .nonstr => false

/-- The inner loop over one director's address values: the `break` after the
increment makes each director contribute at most once, i.e. the director
contributes exactly when some value matches. -/
def directorDefaultFlag (o : Officer) : Bool :=
  (addressValues o).any valMatchesDefault

/-- The outer loop over directors in the default-address check. The `break`
in the source is inside the loop over one director's address values, so this
loop continues past a matching director: every matching director adds 1. -/
def scanDirectorsDefault : List Officer → Nat
  | [] => 0
  | o :: rest => (if directorDefaultFlag o then 1 else 0) + scanDirectorsDefault rest

/-- Does `'default address'` occur in the lowered, stripped first line of the
registered office address? -/
def regAddressFlag (info : Company) : Bool :=
  containsSub "default address" (lower (strField info.company_data.regAddressLine1))

/-- This company's total contribution to its group's `default_address`
counter: 1 if the registered address is flagged (directors not inspected),
otherwise the result of the director scan. -/
def defaultAddressContrib (info : Company) : Nat :=
  if regAddressFlag info then 1 else scanDirectorsDefault info.directors

/-- Add one company's three contributions to its group's metrics. -/
def updateGroup (m : Metrics) (g : Bool) (conf acc da : Nat) : Metrics :=
  if g then
    { m with with_uk := ⟨m.with_uk.late_confstmt + conf,
                        m.with_uk.late_accounts + acc,
                        m.with_uk.default_address + da⟩ }
  else
    { m with without_uk := ⟨m.without_uk.late_confstmt + conf,
                           m.without_uk.late_accounts + acc,
                           m.without_uk.default_address + da⟩ }

/-- The per-company body of `analyze_compliance`. -/
def analyzeStep (uk : List String) (today : Date) (m : Metrics)
    (info : Company) : Metrics :=
  updateGroup m (hasUkShortCircuit uk info.directors)
    (lateContrib today info.company_data.confStmtNextDueDate)
    (lateContrib today info.company_data.accountsNextDueDate)
    (defaultAddressContrib info)

/-- The company loop of `analyze_compliance`. -/
def analyzeLoop (uk : List String) (today : Date) (m : Metrics) :
    List Company → Metrics
  | [] => m
  | info :: rest => analyzeLoop uk today (analyzeStep uk today m info) rest

/-- `analyze_compliance`, with the processing date passed explicitly. -/
def analyze_compliance (uk : List String) (today : Date)
    (companies : List Company) : Metrics :=
  analyzeLoop uk today ⟨⟨0, 0, 0⟩, ⟨0, 0, 0⟩⟩ companies

/-! ### Statistical estimator (over `ℝ`) -/

/-- The z-score constant `Z95 = 1.96`. -/
noncomputable def Z95 : ℝ := 1.96

/-- The guarded point estimate `k / n if n else 0` used at lines 110, 115
and 195 of the source. -/
noncomputable def proportion (k n : Nat) : ℝ :=
  if n ≠ 0 then (k : ℝ) / n else 0

/-- The guarded Wald margin of error
`Z95 * sqrt(p * (1 - p) / n) if n else 0` used at lines 111, 116 and 196. -/
noncomputable def moeOf (k n : Nat) : ℝ :=
  if n ≠ 0 then Z95 * Real.sqrt (proportion k n * (1 - proportion k n) / n)
  else 0

/-- `count_foreign_and_uk_directors`: the counts plus the two printed
(proportion, margin) pairs. -/
noncomputable def count_foreign_and_uk_directors (uk : List String)
    (companies : List Company) : Counts × (ℝ × ℝ) × (ℝ × ℝ) :=
  let counts := count_companies_by_uk_director_status uk companies
  (counts,
   (proportion counts.without_uk counts.total_companies,
    moeOf counts.without_uk counts.total_companies),
   (proportion counts.questionable_residence counts.total_directors,
    moeOf counts.questionable_residence counts.total_directors))

/-- `display_compliance_indicators`: the six printed (proportion, margin)
pairs, group by group and metric by metric. -/
noncomputable def display_compliance_indicators (counts : Counts)
    (metrics : Metrics) : List (ℝ × ℝ) :=
  [(proportion metrics.with_uk.late_confstmt counts.with_uk,
    moeOf metrics.with_uk.late_confstmt counts.with_uk),
   (proportion metrics.with_uk.late_accounts counts.with_uk,
    moeOf metrics.with_uk.late_accounts counts.with_uk),
   (proportion metrics.with_uk.default_address counts.with_uk,
    moeOf metrics.with_uk.default_address counts.with_uk),
   (proportion metrics.without_uk.late_confstmt counts.without_uk,
    moeOf metrics.without_uk.late_confstmt counts.without_uk),
   (proportion metrics.without_uk.late_accounts counts.without_uk,
    moeOf metrics.without_uk.late_accounts counts.without_uk),
   (proportion metrics.without_uk.default_address counts.without_uk,
    moeOf metrics.without_uk.default_address counts.without_uk)]

section RatioEstimator

open scoped Classical

/-- The `p` computed in the per-group loop of
`calculate_and_print_default_address_ratio`: `p = 0.0; if n > 0: p = count/n`. -/
noncomputable def statP (n count : Nat) : ℝ :=
  if 0 < n then (count : ℝ) / n else 0

/-- The `moe_p` computed in that loop: the Wald margin when `n > 0` and
`0 < p < 1`, the same (vanishing) expression when `n > 0` and `p` is 0 or 1,
otherwise the initial 0. -/
noncomputable def statMoe (n count : Nat) : ℝ :=
  if 0 < n ∧ 0 < statP n count ∧ statP n count < 1 then
    Z95 * Real.sqrt (statP n count * (1 - statP n count) / n)
  else if 0 < n ∧ (statP n count = 0 ∨ statP n count = 1) then
    Z95 * Real.sqrt (statP n count * (1 - statP n count) / n)
  else 0

/-- The one Python exception the ratio estimator can raise. -/
inductive PyError where
  | zeroDivisionError
deriving DecidableEq, Repr

/-- `calculate_and_print_default_address_ratio`. `ratio = p_foreign / p_uk`
is unguarded float division, which raises `ZeroDivisionError` exactly when
`p_uk` is zero; that is the `Except.error` branch. Otherwise the function
produces the printed pair `(ratio, moe_ratio)`. -/
noncomputable def calculate_and_print_default_address_ratio (counts : Counts)
    (metrics : Metrics) : Except PyError (ℝ × ℝ) :=
  let p_uk := statP counts.with_uk metrics.with_uk.default_address
  let moe_p_uk := statMoe counts.with_uk metrics.with_uk.default_address
  let p_foreign := statP counts.without_uk metrics.without_uk.default_address
  let moe_p_foreign := statMoe counts.without_uk metrics.without_uk.default_address
  if p_uk = 0 then .error .zeroDivisionError
  else
    let ratio := p_foreign / p_uk
    let rel_err_sq_foreign :=
      if 0 < p_foreign ∧ 0 < moe_p_foreign then (moe_p_foreign / p_foreign) ^ 2 else 0
    let rel_err_sq_uk :=
      if 0 < p_uk ∧ 0 < moe_p_uk then (moe_p_uk / p_uk) ^ 2 else 0
    let moe_ratio :=
      if ratio ≠ 0 then
        if 0 < rel_err_sq_foreign ∨ 0 < rel_err_sq_uk then
          |ratio| * Real.sqrt (rel_err_sq_foreign + rel_err_sq_uk)
        else 0
      else 0
    .ok (ratio, moe_ratio)

end RatioEstimator

/-! ### Structural lemmas about the two passes -/

/-- The full-scan inner loop, closed form: the flag becomes `has_uk || any
qualifying director`, the questionable counter grows by one per questionable
director, and the director counter by the number of directors. -/
theorem dirScan_spec (uk : List String) (l : List Officer) :
    ∀ (h : Bool) (q nd : Nat),
      dirScan uk h q nd l =
        (h || l.any (qualifiesUK uk),
         q + l.countP (questionableDir uk),
         nd + l.length) := by
  induction l with
  | nil => intro h q nd; simp [dirScan]
  | cons o rest ih =>
    intro h q nd
    by_cases hr : residenceUK uk o
    · by_cases ha : addressUK uk o
      · rw [dirScan, if_pos hr, if_pos ha, ih]
        simp [qualifiesUK, questionableDir, hr, ha, List.countP_cons,
          Prod.ext_iff]
        omega
      · rw [dirScan, if_pos hr, if_neg ha, ih]
        simp [qualifiesUK, questionableDir, hr, ha, List.countP_cons,
          Prod.ext_iff]
        omega
    · rw [dirScan, if_neg hr, ih]
      simp [qualifiesUK, questionableDir, hr, List.countP_cons, Prod.ext_iff]
      omega

/-- The short-circuit grouping loop computes `any qualifying director`. -/
theorem hasUkShortCircuit_eq_any (uk : List String) (l : List Officer) :
    hasUkShortCircuit uk l = l.any (qualifiesUK uk) := by
  induction l with
  | nil => rfl
  | cons o rest ih =>
    by_cases h : qualifiesUK uk o <;> simp [hasUkShortCircuit, h, ih]

/-- The outer counting loop, closed form over any starting accumulator. -/
theorem countLoop_spec (uk : List String) (l : List Company) :
    ∀ c : Counts,
      countLoop uk c l =
        ⟨c.with_uk + l.countP (fun i => (dirScan uk false 0 0 i.directors).1),
         c.without_uk + l.countP (fun i => !(dirScan uk false 0 0 i.directors).1),
         c.questionable_residence +
           (l.map (fun i => (dirScan uk false 0 0 i.directors).2.1)).sum,
         c.total_directors +
           (l.map (fun i => (dirScan uk false 0 0 i.directors).2.2)).sum,
         c.total_companies⟩ := by
  induction l with
  | nil => intro c; simp [countLoop]
  | cons a rest ih =>
    intro c
    rw [countLoop, ih]
    by_cases hg : (dirScan uk false 0 0 a.directors).1
    · simp [accumCompany, hg, Counts.mk.injEq, List.countP_cons]
      omega
    · simp [accumCompany, hg, Counts.mk.injEq, List.countP_cons]
      omega

/-- The compliance loop distributes over list append. -/
theorem analyzeLoop_append (uk : List String) (t : Date)
    (l1 l2 : List Company) :
    ∀ m, analyzeLoop uk t m (l1 ++ l2) =
      analyzeLoop uk t (analyzeLoop uk t m l1) l2 := by
  induction l1 with
  | nil => intro m; rfl
  | cons a rest ih =>
    intro m
    simp only [List.cons_append, analyzeLoop]
    exact ih _

/-- The director default-address scan counts the matching directors. -/
theorem scanDirectorsDefault_eq_countP (l : List Officer) :
    scanDirectorsDefault l = l.countP directorDefaultFlag := by
  induction l with
  | nil => rfl
  | cons o rest ih =>
    by_cases h : directorDefaultFlag o
    · simp [scanDirectorsDefault, h, ih, List.countP_cons]
      omega
    · simp [scanDirectorsDefault, h, ih, List.countP_cons]

/-- `updateGroup` adds the three contributions to the selected group. -/
theorem updateGroup_group_same (m : Metrics) (g : Bool) (conf acc da : Nat) :
    (updateGroup m g conf acc da).group g =
      ⟨(m.group g).late_confstmt + conf,
       (m.group g).late_accounts + acc,
       (m.group g).default_address + da⟩ := by
  cases g <;> simp [updateGroup, Metrics.group]

/-- `updateGroup` leaves the other group untouched. -/
theorem updateGroup_group_other (m : Metrics) (g : Bool) (conf acc da : Nat) :
    (updateGroup m g conf acc da).group (!g) = m.group (!g) := by
  cases g <;> simp [updateGroup, Metrics.group]

/-- A predicate and its negation count every element exactly once. -/
theorem countP_not_add {α : Type} (p : α → Bool) (l : List α) :
    l.countP p + l.countP (fun a => !p a) = l.length := by
  induction l with
  | nil => rfl
  | cons a rest ih =>
    by_cases h : p a
    · simp [List.countP_cons, h]
      omega
    · simp [List.countP_cons, h]
      omega

/-- The two classifiers agree on every director list: `break`-on-first-match
versus full scan both compute "some director qualifies". -/
theorem classifier_agree (uk : List String) (l : List Officer) :
    hasUkShortCircuit uk l = (dirScan uk false 0 0 l).1 := by
  rw [hasUkShortCircuit_eq_any, dirScan_spec]
  simp

/-! ### Claim theorems -/

/-- C8: the counts returned by `count_companies_by_uk_director_status`
satisfy `total_companies = with_uk + without_uk`, and that sum equals the
number of companies in the input. -/
theorem claim_C8 (uk : List String) (companies : List Company) :
    (count_companies_by_uk_director_status uk companies).total_companies =
      (count_companies_by_uk_director_status uk companies).with_uk +
        (count_companies_by_uk_director_status uk companies).without_uk ∧
    (count_companies_by_uk_director_status uk companies).with_uk +
        (count_companies_by_uk_director_status uk companies).without_uk =
      companies.length := by
  constructor
  · rfl
  · have hc := countP_not_add
      (fun i => (dirScan uk false 0 0 i.directors).1) companies
    simp only [count_companies_by_uk_director_status, countLoop_spec]
    simpa using hc

/-- C3: the full-scan classifier of `count_companies_by_uk_director_status`
and the short-circuit classifier of `analyze_compliance` compute the same
has-UK-director outcome for every company, so both passes assign every
company to the same group; at the dataset level the with/without counts are
exactly the counts of companies the short-circuit classifier accepts and
rejects. -/
theorem claim_C3 (uk : List String) (dirs : List Officer)
    (companies : List Company) :
    hasUkShortCircuit uk dirs = (dirScan uk false 0 0 dirs).1 ∧
    (count_companies_by_uk_director_status uk companies).with_uk =
      companies.countP (fun i => hasUkShortCircuit uk i.directors) ∧
    (count_companies_by_uk_director_status uk companies).without_uk =
      companies.countP (fun i => !hasUkShortCircuit uk i.directors) := by
  refine ⟨classifier_agree uk dirs, ?_, ?_⟩
  · simp only [count_companies_by_uk_director_status, countLoop_spec]
    simp only [Nat.zero_add]
    exact List.countP_congr (fun i _ => by rw [classifier_agree])
  · simp only [count_companies_by_uk_director_status, countLoop_spec]
    simp only [Nat.zero_add]
    exact List.countP_congr (fun i _ => by rw [classifier_agree])

/-- C4: `questionable_residence` grows by exactly one per director whose
residence country passes the UK test while the address country does not,
with no per-company deduplication; and the single-director company with
residence "United Kingdom" and address country "France" is classified
no-UK-director and contributes exactly 1. -/
theorem claim_C4 (uk : List String) (companies : List Company) :
    (count_companies_by_uk_director_status uk companies).questionable_residence =
      (companies.map (fun i => i.directors.countP (questionableDir uk))).sum ∧
    count_companies_by_uk_director_status (load_UK_variants ["United Kingdom"])
      [⟨[⟨some "United Kingdom", none, some [("country", AVal.str "France")]⟩],
        ⟨none, none, none⟩⟩] = ⟨0, 1, 1, 1, 1⟩ ∧
    count_companies_by_uk_director_status (load_UK_variants ["United Kingdom"])
      [⟨[⟨some "United Kingdom", none, some [("country", AVal.str "France")]⟩,
         ⟨some "United Kingdom", none, none⟩],
        ⟨none, none, none⟩⟩] = ⟨0, 1, 2, 2, 1⟩ := by
  refine ⟨?_, by decide, by decide⟩
  simp [count_companies_by_uk_director_status, countLoop_spec, dirScan_spec]

/-- C6: the UK-membership test used by the classifiers gives the same answer
on any two country strings that agree after trimming and case-folding, for
any variant-file contents; moreover every stripped non-empty input line is
itself (case-folded) a member of the built set. -/
theorem claim_C6 (lines : List String) (a b v : String)
    (h : casefold (strip a) = casefold (strip b))
    (hv : v ∈ lines) (hne : strip v ≠ "") :
    isUKVariant (load_UK_variants lines) a = isUKVariant (load_UK_variants lines) b ∧
    casefold (strip v) ∈ load_UK_variants lines := by
  constructor
  · simp [isUKVariant, h]
  · simp only [load_UK_variants]
    exact List.mem_map_of_mem _
      (List.mem_filter.mpr ⟨List.mem_map_of_mem _ hv, by simpa using hne⟩)

/-- C6 witness: "UNITED KINGDOM" and " united kingdom " trim-casefold to the
same string, so the membership test treats them identically. -/
theorem claim_C6_witness :
    (casefold (strip "UNITED KINGDOM") = casefold (strip " united kingdom ") ∧
     "United Kingdom" ∈ ["United Kingdom"] ∧ strip "United Kingdom" ≠ "") ∧
    (isUKVariant (load_UK_variants ["United Kingdom"]) "UNITED KINGDOM" =
       isUKVariant (load_UK_variants ["United Kingdom"]) " united kingdom " ∧
     casefold (strip "United Kingdom") ∈ load_UK_variants ["United Kingdom"]) :=
  ⟨⟨by decide, by decide, by decide⟩,
   claim_C6 ["United Kingdom"] "UNITED KINGDOM" " united kingdom "
     "United Kingdom" (by decide) (by decide) (by decide)⟩

/-- C10: the resolved residence country is `country_of_residence` only when
that field is present and non-empty; a director whose `country_of_residence`
is the empty string behaves exactly as if the field were absent, for country
resolution, both classifier predicates, the questionable-residence test, and
country extraction. -/
theorem claim_C10 (uk : List String) (o : Officer) (s : String)
    (h : o.country_of_residence = some "") (hs : s ≠ "") :
    resolvedCountry o = resolvedCountry { o with country_of_residence := none } ∧
    residenceUK uk o = residenceUK uk { o with country_of_residence := none } ∧
    qualifiesUK uk o = qualifiesUK uk { o with country_of_residence := none } ∧
    questionableDir uk o = questionableDir uk { o with country_of_residence := none } ∧
    officerCountries o = officerCountries { o with country_of_residence := none } ∧
    resolvedCountry { o with country_of_residence := none } = o.residence_country ∧
    resolvedCountry { o with country_of_residence := some s } = some s := by
  have h1 : resolvedCountry o =
      resolvedCountry { o with country_of_residence := none } := by
    simp [resolvedCountry, h]
  refine ⟨h1, ?_, ?_, ?_, ?_, ?_, ?_⟩
  · simp [residenceUK, h1]
  · simp [qualifiesUK, residenceUK, addressUK, addressCountryOf, h1]
  · simp [questionableDir, residenceUK, addressUK, addressCountryOf, h1]
  · simp [officerCountries, addressCountryOf, h1]
  · simp [resolvedCountry]
  · simp [resolvedCountry, hs]

/-- C10 witness: a concrete director with `country_of_residence = ""`. -/
theorem claim_C10_witness :
    ((⟨some "", some "France", none⟩ : Officer).country_of_residence = some "" ∧
     "Spain" ≠ "") ∧
    (resolvedCountry ⟨some "", some "France", none⟩ =
       resolvedCountry ⟨none, some "France", none⟩ ∧
     residenceUK [] ⟨some "", some "France", none⟩ =
       residenceUK [] ⟨none, some "France", none⟩ ∧
     qualifiesUK [] ⟨some "", some "France", none⟩ =
       qualifiesUK [] ⟨none, some "France", none⟩ ∧
     questionableDir [] ⟨some "", some "France", none⟩ =
       questionableDir [] ⟨none, some "France", none⟩ ∧
     officerCountries ⟨some "", some "France", none⟩ =
       officerCountries ⟨none, some "France", none⟩ ∧
     resolvedCountry ⟨none, some "France", none⟩ =
       (⟨some "", some "France", none⟩ : Officer).residence_country ∧
     resolvedCountry ⟨some "Spain", some "France", none⟩ = some "Spain") :=
  ⟨⟨rfl, by decide⟩,
   claim_C10 [] ⟨some "", some "France", none⟩ "Spain" rfl (by decide)⟩

/-- C5: appending one company to the dataset grows its group's
`late_confstmt` (resp. `late_accounts`) by exactly the due-date contribution
and leaves the other group untouched; the contribution is 1 exactly when the
field parses as a day/month/year date strictly before the processing date,
and 0 exactly otherwise (in particular for a missing or malformed field,
which the source swallows with `except Exception: pass` rather than
raising). -/
theorem claim_C5 (uk : List String) (today : Date) (pre : List Company)
    (info : Company) (f : Option String) :
    ((analyze_compliance uk today (pre ++ [info])).group
        (hasUkShortCircuit uk info.directors)).late_confstmt =
      ((analyze_compliance uk today pre).group
        (hasUkShortCircuit uk info.directors)).late_confstmt +
        lateContrib today info.company_data.confStmtNextDueDate ∧
    ((analyze_compliance uk today (pre ++ [info])).group
        (hasUkShortCircuit uk info.directors)).late_accounts =
      ((analyze_compliance uk today pre).group
        (hasUkShortCircuit uk info.directors)).late_accounts +
        lateContrib today info.company_data.accountsNextDueDate ∧
    (analyze_compliance uk today (pre ++ [info])).group
        (!hasUkShortCircuit uk info.directors) =
      (analyze_compliance uk today pre).group
        (!hasUkShortCircuit uk info.directors) ∧
    (lateContrib today f = 1 ↔
      ∃ d, parseDMY (strField f) = some d ∧ Date.isBefore d today = true) ∧
    (lateContrib today f = 0 ↔
      ¬ ∃ d, parseDMY (strField f) = some d ∧ Date.isBefore d today = true) := by
  have hstep : analyze_compliance uk today (pre ++ [info]) =
      analyzeStep uk today (analyze_compliance uk today pre) info := by
    simp [analyze_compliance, analyzeLoop_append, analyzeLoop]
  refine ⟨?_, ?_, ?_, ?_, ?_⟩
  · rw [hstep, analyzeStep, updateGroup_group_same]
  · rw [hstep, analyzeStep, updateGroup_group_same]
  · rw [hstep, analyzeStep, updateGroup_group_other]
  · cases hp : parseDMY (strField f) with
    | none => simp [lateContrib, hp]
    | some d =>
      by_cases hb : Date.isBefore d today <;> simp [lateContrib, hp, hb]
  · cases hp : parseDMY (strField f) with
    | none => simp [lateContrib, hp]
    | some d =>
      by_cases hb : Date.isBefore d today <;> simp [lateContrib, hp, hb]

/-- C1 (counterexample to the claim as stated): the `break` in the source
exits only the loop over one director's address values, not the loop over
directors, so a company with a clean registered address and two directors
whose addresses both contain "default address" increments `default_address`
twice — more than "at most once per company". -/
theorem claim_C1_counterexample :
    ((analyze_compliance [] ⟨2026, 10, 12⟩
        [⟨[⟨some "France", none,
            some [("address_line_1", AVal.str "3 Default address Road")]⟩,
           ⟨some "France", none,
            some [("address_line_1", AVal.str "3 Default address Road")]⟩],
          ⟨none, none, some "1 Clean Street"⟩⟩]).without_uk).default_address
      = 2 ∧
    ¬ ((analyze_compliance [] ⟨2026, 10, 12⟩
        [⟨[⟨some "France", none,
            some [("address_line_1", AVal.str "3 Default address Road")]⟩,
           ⟨some "France", none,
            some [("address_line_1", AVal.str "3 Default address Road")]⟩],
          ⟨none, none, some "1 Clean Street"⟩⟩]).without_uk).default_address
      ≤ 1 := by
  decide

/-- C1 (amended): if the registered office address's first line contains
"default address" (case-insensitively), `default_address` for the company's
group grows by exactly 1 and the directors are not inspected (the
contribution is 1 for any directors list); otherwise it grows by one per
director having a string-valued address field containing "default address"
(case-insensitively) — at most once per director via the inner first-match
break, but possibly more than once per company. The other group is
untouched. -/
theorem claim_C1 (uk : List String) (today : Date) (pre : List Company)
    (info : Company) (ds : List Officer) :
    ((analyze_compliance uk today (pre ++ [info])).group
        (hasUkShortCircuit uk info.directors)).default_address =
      ((analyze_compliance uk today pre).group
        (hasUkShortCircuit uk info.directors)).default_address +
        defaultAddressContrib info ∧
    ((analyze_compliance uk today (pre ++ [info])).group
        (!hasUkShortCircuit uk info.directors)).default_address =
      ((analyze_compliance uk today pre).group
        (!hasUkShortCircuit uk info.directors)).default_address ∧
    defaultAddressContrib { info with directors := ds } =
      (if regAddressFlag info then 1 else ds.countP directorDefaultFlag) ∧
    ds.countP directorDefaultFlag ≤ ds.length := by
  have hstep : analyze_compliance uk today (pre ++ [info]) =
      analyzeStep uk today (analyze_compliance uk today pre) info := by
    simp [analyze_compliance, analyzeLoop_append, analyzeLoop]
  refine ⟨?_, ?_, ?_, List.countP_le_length _⟩
  · rw [hstep, analyzeStep, updateGroup_group_same]
  · rw [hstep, analyzeStep, updateGroup_group_other]
  · simp [defaultAddressContrib, regAddressFlag, scanDirectorsDefault_eq_countP]

/-- C7: the guarded estimator returns `p = k/n` with `p = 0` at `n = 0`, and
a margin `1.96 * sqrt(p*(1-p)/n)` that is 0 at `n = 0`; it is a total,
never-negative real-valued function (no division-by-zero error, no NaN), and
`k = 0, n = 10` gives `p = 0` and `moe = 0`. -/
theorem claim_C7 (k n : Nat) :
    proportion k n = (if n = 0 then 0 else (k : ℝ) / n) ∧
    moeOf k n = (if n = 0 then 0 else
      Z95 * Real.sqrt (proportion k n * (1 - proportion k n) / n)) ∧
    0 ≤ moeOf k n ∧
    proportion 0 10 = 0 ∧ moeOf 0 10 = 0 := by
  refine ⟨?_, ?_, ?_, ?_, ?_⟩
  · by_cases h : n = 0 <;> simp [proportion, h]
  · by_cases h : n = 0 <;> simp [moeOf, h]
  · by_cases h : n = 0
    · simp [moeOf, h]
    · simp only [moeOf, h, if_neg, ite_not, if_false]
      have : 0 ≤ Z95 * Real.sqrt (proportion k n * (1 - proportion k n) / n) :=
        mul_nonneg (by norm_num [Z95]) (Real.sqrt_nonneg _)
      simpa [h] using this
  · simp [proportion]
  · simp [moeOf, proportion, Real.sqrt_zero]

section RatioClaims

open scoped Classical

/-- The per-group `p` of the ratio estimator is zero when the group has no
companies or no default-address occurrences. -/
theorem statP_eq_zero (n k : Nat) (h : n = 0 ∨ k = 0) : statP n k = 0 := by
  rcases h with h | h <;> simp [statP, h]

/-- C2: when the `with_uk` group's default-address proportion is zero
(no `with_uk` companies, or none flagged), the ratio estimator hits the
unguarded `p_foreign / p_uk` and raises `ZeroDivisionError` instead of
returning; every other proportion and margin computation yields 0 under a
zero denominator rather than raising. -/
theorem claim_C2 (counts : Counts) (metrics : Metrics) (k : Nat)
    (h : counts.with_uk = 0 ∨ metrics.with_uk.default_address = 0) :
    calculate_and_print_default_address_ratio counts metrics =
      Except.error PyError.zeroDivisionError ∧
    proportion k 0 = 0 ∧ moeOf k 0 = 0 ∧ statP 0 k = 0 ∧ statMoe 0 k = 0 := by
  have hp : statP counts.with_uk metrics.with_uk.default_address = 0 :=
    statP_eq_zero _ _ h
  refine ⟨?_, by simp [proportion], by simp [moeOf],
    statP_eq_zero 0 k (Or.inl rfl), ?_⟩
  · simp [calculate_and_print_default_address_ratio, hp]
  · simp [statMoe]

/-- C2 witness: zero `with_uk` companies is a concrete crash input. -/
theorem claim_C2_witness :
    ((⟨0, 2, 0, 0, 2⟩ : Counts).with_uk = 0 ∨
     (⟨⟨0, 0, 0⟩, ⟨0, 0, 1⟩⟩ : Metrics).with_uk.default_address = 0) ∧
    (calculate_and_print_default_address_ratio ⟨0, 2, 0, 0, 2⟩
        ⟨⟨0, 0, 0⟩, ⟨0, 0, 1⟩⟩ = Except.error PyError.zeroDivisionError ∧
     proportion 5 0 = 0 ∧ moeOf 5 0 = 0 ∧ statP 0 5 = 0 ∧ statMoe 0 5 = 0) :=
  ⟨Or.inl rfl, claim_C2 ⟨0, 2, 0, 0, 2⟩ ⟨⟨0, 0, 0⟩, ⟨0, 0, 1⟩⟩ 5 (Or.inl rfl)⟩

/-- C9: when the unguarded division does not raise, the ratio estimator
returns `ratio = p_foreign / p_uk` together with a margin that is
`|ratio| * sqrt` of the sum of the two relative-error-squared terms — each
term being `(moe_p/p)^2` when both `p > 0` and `moe_p > 0` and 0 otherwise —
when `ratio ≠ 0` and some term is positive, and 0 when `ratio = 0` or both
terms vanish. -/
theorem claim_C9 (counts : Counts) (metrics : Metrics)
    (p_uk moe_uk p_f moe_f : ℝ)
    (hpuk : p_uk = statP counts.with_uk metrics.with_uk.default_address)
    (hmuk : moe_uk = statMoe counts.with_uk metrics.with_uk.default_address)
    (hpf : p_f = statP counts.without_uk metrics.without_uk.default_address)
    (hmf : moe_f = statMoe counts.without_uk metrics.without_uk.default_address)
    (h : p_uk ≠ 0) :
    calculate_and_print_default_address_ratio counts metrics =
      Except.ok (p_f / p_uk,
        if p_f / p_uk = 0 then 0
        else
          if 0 < (if 0 < p_f ∧ 0 < moe_f then (moe_f / p_f) ^ 2 else 0) ∨
             0 < (if 0 < p_uk ∧ 0 < moe_uk then (moe_uk / p_uk) ^ 2 else 0) then
            |p_f / p_uk| *
              Real.sqrt
                ((if 0 < p_f ∧ 0 < moe_f then (moe_f / p_f) ^ 2 else 0) +
                 (if 0 < p_uk ∧ 0 < moe_uk then (moe_uk / p_uk) ^ 2 else 0))
          else 0) := by
  subst hpuk hmuk hpf hmf
  simp only [calculate_and_print_default_address_ratio]
  rw [if_neg h]
  refine congrArg Except.ok (Prod.ext rfl ?_)
  by_cases hr :
      statP counts.without_uk metrics.without_uk.default_address /
        statP counts.with_uk metrics.with_uk.default_address = 0
  · simp [hr]
  · simp [hr]

/-- C9 witness: one company and one flagged address in each group gives
`p_uk = p_foreign = 1`, both margins 0, ratio 1 and margin-of-ratio 0. -/
theorem claim_C9_witness :
    statP 1 1 ≠ 0 ∧
    calculate_and_print_default_address_ratio ⟨1, 1, 0, 0, 2⟩
        ⟨⟨0, 0, 1⟩, ⟨0, 0, 1⟩⟩ =
      Except.ok (statP 1 1 / statP 1 1,
        if statP 1 1 / statP 1 1 = 0 then 0
        else
          if 0 < (if 0 < statP 1 1 ∧ 0 < statMoe 1 1 then
                    (statMoe 1 1 / statP 1 1) ^ 2 else 0) ∨
             0 < (if 0 < statP 1 1 ∧ 0 < statMoe 1 1 then
                    (statMoe 1 1 / statP 1 1) ^ 2 else 0) then
            |statP 1 1 / statP 1 1| *
              Real.sqrt
                ((if 0 < statP 1 1 ∧ 0 < statMoe 1 1 then
                    (statMoe 1 1 / statP 1 1) ^ 2 else 0) +
                 (if 0 < statP 1 1 ∧ 0 < statMoe 1 1 then
                    (statMoe 1 1 / statP 1 1) ^ 2 else 0))
          else 0) := by
  have h : statP 1 1 ≠ 0 := by simp [statP]
  exact ⟨h, claim_C9 ⟨1, 1, 0, 0, 2⟩ ⟨⟨0, 0, 1⟩, ⟨0, 0, 1⟩⟩
    (statP 1 1) (statMoe 1 1) (statP 1 1) (statMoe 1 1) rfl rfl rfl rfl h⟩

end RatioClaims

end CompaniesHouse
